import Mathlib

/-!
Shallow embedding of `distributed/shuffle/_worker_extension.py`: the
per-worker P2P shuffle runtime (`ShuffleRun`, `ShuffleWorkerExtension`) and
the splitting helpers (`split_by_worker`, `split_by_partition`).

Modelling conventions:
* Python exceptions become an explicit `Err` value threaded through
  `Except`; a Python method that can raise and mutate `self` becomes a
  function `State → State × Except Err α`.
* Byte payloads are opaque (`Bytes := String`); the external columnar
  codec (arrow serialize/deserialize, `sizeof`) is out of scope per the
  spec, so codec-dependent computations are passed in as parameters.
* The `ShardsBuffer` machinery (`CommShardsBuffer`, `DiskShardsBuffer`,
  `ResourceLimiter`) is not part of the provided sources; following the
  spec (§4.2–§4.4) their writes are modelled as appends to per-destination
  queues that fail fast when a sticky flusher exception is set, and disk
  reads return the accumulated payload for a partition (`none` models the
  `KeyError` for a missing partition file).
-/

/-- Opaque byte payload produced by the external columnar codec. -/
abbrev Bytes := String

/-- Errors raised by the shuffle core (Python exception classes). -/
inductive Err where
  /-- `ShuffleClosedError` with the shuffle id and the local address. -/
  | shuffleClosed (id : String) (addr : String)
  /-- A `RuntimeError` with a message. -/
  | runtimeError (msg : String)
  /-- A failed `assert` statement. -/
  | assertionError (msg : String)
  /-- A `KeyError` (missing key in a mapping). -/
  | keyError
  deriving DecidableEq, Repr

/-- First-match association-list lookup (Python `dict.get` / series indexing). -/
def lookupA {κ α : Type} [DecidableEq κ] : List (κ × α) → κ → Option α
  | [], _ => none
  | (k, v) :: t, k' => if k = k' then some v else lookupA t k'

/-- Remove the binding for a key (Python `dict.pop`). -/
def removeA {κ α : Type} [DecidableEq κ] : List (κ × α) → κ → List (κ × α)
  | [], _ => []
  | (k, v) :: t, k' => if k = k' then removeA t k' else (k, v) :: removeA t k'

/-- An inbound shard: `(input_partition, bytes)`. -/
abbrev Shard := Nat × Bytes

/-- State of one `ShuffleRun` (one `(shuffle_id, run_id)` on one worker).

The buffer-internal fields (`commQueue`, `commSent`, `commExc`, `disk`,
`diskExc`) model the two `ShardsBuffer` instances the run owns: queued
writes, flushed writes, the buffers' sticky flusher exceptions, and the
per-partition spooled payloads. -/
structure ShuffleRunState where
  id : String
  run_id : Nat
  local_address : String
  column : String
  schema : String
  /-- `worker_for`: output partition id → worker address. -/
  worker_for : List (Nat × String)
  output_workers : List String
  closed : Bool
  transferred : Bool
  /-- Deduplication set of input partition ids already received. -/
  received : List Nat
  total_recvd : Nat
  exception : Option Err
  closed_event : Bool
  /-- Outbound comm buffer: queued per-address shard lists. -/
  commQueue : List (String × List Shard)
  /-- Outbound comm buffer: writes already handed to the send sink. -/
  commSent : List (String × List Shard)
  /-- Sticky exception captured by a comm flusher. -/
  commExc : Option Err
  /-- Inbound disk buffer: per-output-partition spooled payloads. -/
  disk : List (Nat × List Bytes)
  /-- Sticky exception captured by a disk flusher. -/
  diskExc : Option Err
  executorShutdown : Bool
  deriving DecidableEq, Repr

namespace ShuffleRun

/-- `ShuffleRun.raise_if_closed`: raises only when `closed` is set — the
sticky exception if any, otherwise `ShuffleClosedError`. -/
def raise_if_closed (s : ShuffleRunState) : Except Err Unit :=
  if s.closed then
    match s.exception with
    | some e => .error e
    | none => .error (.shuffleClosed s.id s.local_address)
  else .ok ()

/-- `ShuffleRun.fail`: latch the exception unless the run is closed. -/
def fail (s : ShuffleRunState) (e : Err) : ShuffleRunState :=
  if s.closed then s else { s with exception := some e }

/-- Resource-releasing actions performed by `ShuffleRun.close`. -/
inductive CloseAction where
  | closeComm
  | closeDisk
  | shutdownExecutor
  | setLatch
  deriving DecidableEq, Repr

/-- `ShuffleRun.close`: if already closed, only await the latch (no
actions); otherwise mark closed, close both buffers, shut down the
executor, and set the latch. Returns the actions performed. -/
def close (s : ShuffleRunState) : ShuffleRunState × List CloseAction :=
  if s.closed then (s, [])
  else
    ({ s with
        closed := true
        commQueue := []
        commSent := []
        disk := []
        executorShutdown := true
        closed_event := true },
      [.closeComm, .closeDisk, .shutdownExecutor, .setLatch])

/-- Append shard lists to the per-destination queues of an association
list (`ShardsBuffer.write`: for each destination, extend its queue). -/
def bufferAppend {κ α : Type} [DecidableEq κ]
    (buf : List (κ × List α)) (data : List (κ × List α)) : List (κ × List α) :=
  data.foldl
    (fun acc kv =>
      match lookupA acc kv.1 with
      | some old => removeA acc kv.1 ++ [(kv.1, old ++ kv.2)]
      | none => acc ++ [kv])
    buf

/-- Modelled from the spec (§4.2, `ShardsBuffer.write` of the disk
buffer, whose source is not provided): a write appends each
partition's payloads to that partition's queue, and fails fast with the
buffer's sticky flusher exception when one is set. -/
def diskWrite (s : ShuffleRunState) (data : List (Nat × List Bytes)) :
    ShuffleRunState × Except Err Unit :=
  match s.diskExc with
  | some e => (s, .error e)
  | none => ({ s with disk := bufferAppend s.disk data }, .ok ())

/-- Modelled from the spec (§4.2, `ShardsBuffer.write` of the comm
buffer, whose source is not provided): append per-address shard lists to
the queues, failing fast on the sticky flusher exception. -/
def commWrite (s : ShuffleRunState) (data : List (String × List Shard)) :
    ShuffleRunState × Except Err Unit :=
  match s.commExc with
  | some e => (s, .error e)
  | none => ({ s with commQueue := bufferAppend s.commQueue data }, .ok ())

/-- `ShuffleRun._write_to_disk`: `raise_if_closed` then a disk-buffer
write. -/
def write_to_disk (s : ShuffleRunState) (data : List (Nat × List Bytes)) :
    ShuffleRunState × Except Err Unit :=
  match raise_if_closed s with
  | .error e => (s, .error e)
  | .ok _ => diskWrite s data

/-- `ShuffleRun._write_to_comm`: `raise_if_closed` then a comm-buffer
write. -/
def write_to_comm (s : ShuffleRunState) (data : List (String × List Shard)) :
    ShuffleRunState × Except Err Unit :=
  match raise_if_closed s with
  | .error e => (s, .error e)
  | .ok _ => commWrite s data

/-- The filtering loop of `ShuffleRun._receive`: drop shards whose
`input_partition` is already in `received`; collect the payloads of the
rest, mark them received, and accumulate their `sizeof` in the returned
byte count. `sz` models the external `sizeof` of one `(id, bytes)` pair. -/
def filterNew (sz : Shard → Nat) :
    List Shard → List Nat → List Bytes × List Nat × Nat
  | [], received => ([], received, 0)
  | d :: ds, received =>
    if d.1 ∈ received then filterNew sz ds received
    else
      let rest := filterNew sz ds (d.1 :: received)
      (d.2 :: rest.1, rest.2.1, sz d + rest.2.2)

/-- `ShuffleRun._receive` (and `receive`, which merely delegates):
check `raise_if_closed`; filter and mark new input partitions, counting
their bytes into `total_recvd`; return early when nothing is new;
otherwise offload the repartitioning (`repart` models the offloaded
`_repartition_buffers`, whose codec calls may raise) and write the
groups to the disk buffer, latching any exception from that chain into
`exception` before re-raising. -/
def receive (sz : Shard → Nat)
    (repart : List Bytes → Except Err (List (Nat × List Bytes)))
    (s : ShuffleRunState) (data : List Shard) :
    ShuffleRunState × Except Err Unit :=
  match raise_if_closed s with
  | .error e => (s, .error e)
  | .ok _ =>
    let fr := filterNew sz data s.received
    let s1 := { s with received := fr.2.1, total_recvd := s.total_recvd + fr.2.2 }
    if fr.1.isEmpty then (s1, .ok ())
    else
      match repart fr.1 with
      | .error e => ({ s1 with exception := some e }, .error e)
      | .ok groups =>
        match write_to_disk s1 groups with
        | (s2, .error e) => ({ s2 with exception := some e }, .error e)
        | (s2, .ok _) => (s2, .ok ())

/-- `ShuffleRun.add_partition`: `raise_if_closed`; reject when
`transferred`; offload the split-and-serialize (`splitOut` models the
offloaded closure over the external codec, which may raise); write the
result to the comm buffer; return the run id. -/
def add_partition (splitOut : Except Err (List (String × List Shard)))
    (s : ShuffleRunState) : ShuffleRunState × Except Err Nat :=
  match raise_if_closed s with
  | .error e => (s, .error e)
  | .ok _ =>
    if s.transferred then
      (s, .error (.runtimeError "Cannot add more partitions to shuffle"))
    else
      match splitOut with
      | .error e => (s, .error e)
      | .ok out =>
        match write_to_comm s out with
        | (s1, .error e) => (s1, .error e)
        | (s1, .ok _) => (s1, .ok s.run_id)

/-- `ShuffleRun.barrier`: `raise_if_closed`, then the scheduler RPC
`shuffle_barrier` (external; its outcome is the parameter `rpc`). -/
def barrier (rpc : Except Err Unit) (s : ShuffleRunState) :
    ShuffleRunState × Except Err Unit :=
  match raise_if_closed s with
  | .error e => (s, .error e)
  | .ok _ => (s, rpc)

/-- `ShuffleRun.send`: `raise_if_closed`, then the peer RPC
`shuffle_receive` (external; outcome is the parameter `rpc`). -/
def send (rpc : Except Err Unit) (s : ShuffleRunState)
    (_address : String) (_shards : List Shard) :
    ShuffleRunState × Except Err Unit :=
  match raise_if_closed s with
  | .error e => (s, .error e)
  | .ok _ => (s, rpc)

/-- `ShuffleRun.offload`: `raise_if_closed`, then run the function on
the CPU pool (its outcome is the parameter `res`). -/
def offload {α : Type} (res : Except Err α) (s : ShuffleRunState) :
    ShuffleRunState × Except Err α :=
  match raise_if_closed s with
  | .error e => (s, .error e)
  | .ok _ => (s, res)

/-- `ShuffleRun._flush_comm`: `raise_if_closed`, then flush the comm
buffer (queued writes are handed to the send sink). -/
def flush_comm (s : ShuffleRunState) : ShuffleRunState × Except Err Unit :=
  match raise_if_closed s with
  | .error e => (s, .error e)
  | .ok _ => ({ s with commQueue := [], commSent := s.commSent ++ s.commQueue }, .ok ())

/-- `ShuffleRun.flush_receive`: `raise_if_closed`, then flush the disk
buffer. Disk writes are modelled as immediately spooled (`diskWrite`),
so the flush adds nothing beyond the check. -/
def flush_receive (s : ShuffleRunState) : ShuffleRunState × Except Err Unit :=
  match raise_if_closed s with
  | .error e => (s, .error e)
  | .ok _ => (s, .ok ())

/-- `ShuffleRun.inputs_done`: `raise_if_closed`; assert not already
transferred; set `transferred`; flush the comm buffer; then
`raise_on_exception` — a sticky comm-flusher exception is latched into
`exception` and re-raised. -/
def inputs_done (s : ShuffleRunState) : ShuffleRunState × Except Err Unit :=
  match raise_if_closed s with
  | .error e => (s, .error e)
  | .ok _ =>
    if s.transferred then
      (s, .error (.assertionError "inputs_done called multiple times"))
    else
      match flush_comm { s with transferred := true } with
      | (s1, .error e) => (s1, .error e)
      | (s1, .ok _) =>
        match s1.commExc with
        | some e => ({ s1 with exception := some e }, .error e)
        | none => (s1, .ok ())

/-- Result of `get_output_partition`: either a table deserialized from
the on-disk payload, or an empty table synthesized from the run's
schema. -/
inductive OutTable where
  | ofBlob (b : Bytes)
  | emptyOf (schema : String)
  deriving DecidableEq, Repr

/-- `ShuffleRun._read_from_disk`: `raise_if_closed`, then read the
partition's spooled payload. Modelled from the spec (§4.4,
`DiskShardsBuffer.read`, whose source is not provided): the read returns
the partition's concatenated payload and raises `KeyError` when no
shard was spooled for it — which `get_output_partition` catches. -/
def read_from_disk (s : ShuffleRunState) (i : Nat) : Except Err Bytes :=
  match raise_if_closed s with
  | .error e => .error e
  | .ok _ =>
    match lookupA s.disk i with
    | some blobs => .ok (String.join blobs)
    | none => .error .keyError

/-- `ShuffleRun.get_output_partition`: `raise_if_closed`; assert
`transferred`; assert local ownership of the partition (indexing the
`worker_for` series raises `KeyError` for an unknown partition); flush
the disk buffer; read the partition's blob and convert it, returning an
empty table of the stored schema when the read raises `KeyError`. -/
def get_output_partition (s : ShuffleRunState) (i : Nat) :
    ShuffleRunState × Except Err OutTable :=
  match raise_if_closed s with
  | .error e => (s, .error e)
  | .ok _ =>
    if ¬ s.transferred then
      (s, .error (.assertionError "get_output_partition called before barrier task"))
    else
      match lookupA s.worker_for i with
      | none => (s, .error .keyError)
      | some owner =>
        if owner ≠ s.local_address then
          (s, .error (.assertionError "Output partition belongs on another worker"))
        else
          match flush_receive s with
          | (s1, .error e) => (s1, .error e)
          | (s1, .ok _) =>
            match read_from_disk s1 i with
            | .ok blob => (s1, .ok (.ofBlob blob))
            | .error .keyError => (s1, .ok (.emptyOf s1.schema))
            | .error e => (s1, .error e)

end ShuffleRun

/-- The `OK` payload of the scheduler RPC `shuffle_get`. -/
structure SchedOk where
  run_id : Nat
  worker_for : List (Nat × String)
  output_workers : List String
  schema : String
  column : String
  deriving DecidableEq, Repr

/-- Reply of the scheduler RPC `shuffle_get` (`{status: OK, ...}` or
`{status: ERROR, message}`). -/
inductive SchedResult where
  | ok (r : SchedOk)
  | error (msg : String)
  deriving DecidableEq, Repr

/-- The `ShuffleRun.__init__` state for a scheduler reply: fresh flags,
empty buffers and bookkeeping, configuration copied from the reply. -/
def ShuffleRun.init (sid : String) (r : SchedOk) (localAddress : String) :
    ShuffleRunState where
  id := sid
  run_id := r.run_id
  local_address := localAddress
  column := r.column
  schema := r.schema
  worker_for := r.worker_for
  output_workers := r.output_workers
  closed := false
  transferred := false
  received := []
  total_recvd := 0
  exception := none
  closed_event := false
  commQueue := []
  commSent := []
  commExc := none
  disk := []
  diskExc := none
  executorShutdown := false

/-- State of the `ShuffleWorkerExtension` registry. `pendingCloses`
records the background close tasks scheduled via
`_ongoing_background_tasks.call_soon`, holding each evicted run's state
at scheduling time; `runs` models membership in the `_runs` set by run
id (the set hashes runs by `run_id`). -/
structure ExtState where
  shuffles : List (String × ShuffleRunState)
  runs : List Nat
  pendingCloses : List ShuffleRunState
  closed : Bool
  local_address : String
  deriving DecidableEq, Repr

namespace ShuffleWorkerExtension

/-- `ShuffleWorkerExtension._refresh_shuffle`: call the scheduler's
`shuffle_get` (its reply is the parameter `res`); raise on an `ERROR`
status; raise `ShuffleClosedError` when the extension is closed; if a
local run exists with an equal or greater run id, return it unchanged;
otherwise pop the existing run, fail it with "Stale Shuffle", schedule
its close on a background task, and install a fresh run built from the
reply. -/
def refresh_shuffle (ext : ExtState) (sid : String) (res : SchedResult) :
    ExtState × Except Err ShuffleRunState :=
  match res with
  | .error msg => (ext, .error (.runtimeError msg))
  | .ok r =>
    if ext.closed then
      (ext, .error (.shuffleClosed sid ext.local_address))
    else
      let install : ExtState → ExtState × Except Err ShuffleRunState :=
        fun e =>
          let fresh := ShuffleRun.init sid r ext.local_address
          ({ e with
              shuffles := removeA e.shuffles sid ++ [(sid, fresh)]
              runs := e.runs ++ [fresh.run_id] },
            .ok fresh)
      match lookupA ext.shuffles sid with
      | some existing =>
        if r.run_id ≤ existing.run_id then (ext, .ok existing)
        else
          let failed := ShuffleRun.fail existing (.runtimeError "Stale Shuffle")
          install
            { ext with
                shuffles := removeA ext.shuffles sid
                pendingCloses := ext.pendingCloses ++ [failed] }
      | none => install ext

/-- `ShuffleWorkerExtension._get_shuffle_run`: take the local run; when
absent or older than the requested run id, refresh from the scheduler;
then raise "Stale shuffle" when the requested id is smaller, "Invalid
shuffle state" when it is greater, the run's latched exception when one
is set, and otherwise return the run. -/
def get_shuffle_run (ext : ExtState) (sid : String) (rid : Nat)
    (res : SchedResult) : ExtState × Except Err ShuffleRunState :=
  let looked :=
    match lookupA ext.shuffles sid with
    | some sh =>
      if sh.run_id < rid then refresh_shuffle ext sid res else (ext, .ok sh)
    | none => refresh_shuffle ext sid res
  match looked with
  | (ext1, .error e) => (ext1, .error e)
  | (ext1, .ok sh) =>
    if rid < sh.run_id then (ext1, .error (.runtimeError "Stale shuffle"))
    else if sh.run_id < rid then
      (ext1, .error (.runtimeError "Invalid shuffle state"))
    else
      match sh.exception with
      | some e => (ext1, .error e)
      | none => (ext1, .ok sh)

/-- `ShuffleWorkerExtension.close`: `assert not self.closed`; mark
closed; pop and close every run and drop it from `_runs`. -/
def close (ext : ExtState) : ExtState × Except Err Unit :=
  if ext.closed then (ext, .error (.assertionError "not self.closed"))
  else
    ({ ext with
        closed := true
        shuffles := []
        runs := ext.runs.filter
          (fun i => ¬ (ext.shuffles.map (fun p => p.2.run_id)).contains i) },
      .ok ())

end ShuffleWorkerExtension

/-! ### Splitting helpers

A table row is modelled as `(key, payload)` where `key` is the value of
the designated split column (`column` in the source) and `payload` the
remaining columns. -/

/-- A table row: the split-column value and the rest of the row. -/
abbrev Row := Nat × String

/-- Split a list into maximal runs of equal `key`: the `numpy` idiom
`splits = where(codes[1:] != codes[:-1]) + 1` followed by slicing
between consecutive split points. -/
def chunkBy {α β : Type} [DecidableEq β] (key : α → β) : List α → List (List α)
  | [] => []
  | x :: xs =>
    match chunkBy key xs with
    | [] => [[x]]
    | c :: cs =>
      match c with
      | [] => [x] :: cs
      | y :: ys => if key x = key y then (x :: y :: ys) :: cs else [x] :: (y :: ys) :: cs

/-- Insert into a sorted list (auxiliary to `sortBy`). -/
def insertBy {α : Type} (le : α → α → Bool) (x : α) : List α → List α
  | [] => [x]
  | y :: ys => if le x y then x :: y :: ys else y :: insertBy le x ys

/-- Sorting, standing in for the library sorts used by the source
(`Table.sort_by`, `pandas` categorical ordering): insertion sort by a
boolean comparison, chosen because it evaluates by kernel reduction. -/
def sortBy {α : Type} (le : α → α → Bool) : List α → List α
  | [] => []
  | x :: xs => insertBy le x (sortBy le xs)

/-- Lexicographic comparison of char lists (auxiliary to `strLe`). -/
def strLeAux : List Char → List Char → Bool
  | [], _ => true
  | _ :: _, [] => false
  | a :: as, b :: bs => if a = b then strLeAux as bs else decide (a.toNat < b.toNat)

/-- Lexicographic order on strings, spelled out so that it evaluates by
kernel reduction. -/
def strLe (a b : String) : Bool := strLeAux a.data b.data

/-- The categories of `worker_for.astype("category")`: the sorted
distinct worker addresses. -/
def categoriesOf (worker_for : List (Nat × String)) : List String :=
  sortBy strLe (worker_for.map Prod.snd).dedup

/-- The inner join of `split_by_worker`: tag each row with the
categorical code of its destination worker; rows whose key has no entry
in `worker_for` are dropped (`how="inner"`). -/
def taggedRows (df : List Row) (worker_for : List (Nat × String)) :
    List (Row × Nat) :=
  df.filterMap fun r =>
    (lookupA worker_for r.1).map fun w => (r, (categoriesOf worker_for).indexOf w)

/-- `split_by_worker`: inner-join the dataframe with the categorical
codes of `worker_for` on the split column (rows with no match are
dropped), sort by the destination code, slice into runs of equal code,
and map each code back to its worker address. -/
def split_by_worker (df : List Row) (worker_for : List (Nat × String)) :
    List (String × List Row) :=
  if (taggedRows df worker_for).isEmpty then []
  else
    (chunkBy Prod.snd
        (sortBy (fun a b => decide (a.2 ≤ b.2)) (taggedRows df worker_for))).map
      fun c =>
        ((categoriesOf worker_for).getD (c.headD ((0, ""), 0)).2 "",
          c.map Prod.fst)

/-- `split_by_partition`: sort the table by the split column and slice
into runs of equal column value, labelling each shard with that value. -/
def split_by_partition (t : List Row) : List (Nat × List Row) :=
  (chunkBy Prod.fst (sortBy (fun a b => decide (a.1 ≤ b.1)) t)).map
    fun c => ((c.headD (0, "")).1, c)

/-! ### Helper lemmas -/

theorem perm_insertBy {α : Type} (le : α → α → Bool) (x : α) :
    ∀ l : List α, List.Perm (insertBy le x l) (x :: l)
  | [] => List.Perm.refl _
  | y :: ys => by
    simp only [insertBy]
    split
    · exact List.Perm.refl _
    · exact ((perm_insertBy le x ys).cons y).trans (List.Perm.swap x y ys)

theorem perm_sortBy {α : Type} (le : α → α → Bool) :
    ∀ l : List α, List.Perm (sortBy le l) l
  | [] => List.Perm.refl _
  | x :: xs =>
    (perm_insertBy le x (sortBy le xs)).trans ((perm_sortBy le xs).cons x)

theorem flatten_chunkBy {α β : Type} [DecidableEq β] (key : α → β) :
    ∀ l : List α, (chunkBy key l).flatten = l := by
  intro l
  induction l with
  | nil => rfl
  | cons x xs ih =>
    cases h : chunkBy key xs with
    | nil =>
      have hxs : xs = [] := by rw [h] at ih; simpa using ih.symm
      subst hxs
      simp [chunkBy]
    | cons c cs =>
      rw [h] at ih
      cases c with
      | nil =>
        simp only [List.flatten_cons, List.nil_append] at ih
        simp only [chunkBy, h]
        simp [ih]
      | cons y ys =>
        simp only [List.flatten_cons, List.cons_append] at ih
        simp only [chunkBy, h]
        by_cases hk : key x = key y
        · simp [hk, List.flatten_cons, ← ih]
        · simp [hk, List.flatten_cons, ← ih]

theorem map_fst_filterMap_tag {α β γ : Type} (g : α → Option β) (f : β → γ) :
    ∀ l : List α, (∀ r ∈ l, (g r).isSome) →
      (l.filterMap fun r => (g r).map fun w => (r, f w)).map Prod.fst = l := by
  intro l
  induction l with
  | nil => intro _; rfl
  | cons x xs ih =>
    intro h
    cases hg : g x with
    | none =>
      have := h x (List.mem_cons_self x xs)
      rw [hg] at this
      simp at this
    | some w =>
      have := ih fun r hr => h r (List.mem_cons_of_mem x hr)
      simp [List.filterMap_cons, hg, this]

theorem flatten_map_snd_labelled {α β γ : Type} (lbl : List α → γ) (f : α → β)
    (L : List (List α)) :
    ((L.map fun c => (lbl c, c.map f)).map Prod.snd).flatten = L.flatten.map f := by
  rw [List.map_map]
  have h : (Prod.snd ∘ fun c : List α => (lbl c, c.map f)) = fun c : List α => c.map f := rfl
  rw [h, ← List.map_flatten]

theorem flatten_map_snd_labelled_id {α γ : Type} (lbl : List α → γ)
    (L : List (List α)) :
    ((L.map fun c => (lbl c, c)).map Prod.snd).flatten = L.flatten := by
  rw [List.map_map]
  have h : (Prod.snd ∘ fun c : List α => (lbl c, c)) = fun c : List α => c := rfl
  rw [h, List.map_id']

theorem taggedRows_map_fst (df : List Row) (wf : List (Nat × String))
    (h : ∀ r ∈ df, (lookupA wf r.1).isSome) :
    (taggedRows df wf).map Prod.fst = df :=
  map_fst_filterMap_tag (fun r : Row => lookupA wf r.1)
    (fun w => (categoriesOf wf).indexOf w) df h

theorem split_by_worker_rows_perm (df : List Row) (wf : List (Nat × String))
    (h : ∀ r ∈ df, (lookupA wf r.1).isSome) :
    List.Perm ((split_by_worker df wf).map Prod.snd).flatten df := by
  have htag := taggedRows_map_fst df wf h
  rw [split_by_worker]
  split
  · rename_i hempty
    rw [List.isEmpty_iff] at hempty
    rw [hempty] at htag
    simp only [List.map_nil] at htag
    simp [← htag]
  · rw [flatten_map_snd_labelled, flatten_chunkBy]
    have hperm :=
      (perm_sortBy (fun a b : Row × Nat => decide (a.2 ≤ b.2))
        (taggedRows df wf)).map Prod.fst
    rw [htag] at hperm
    exact hperm

theorem split_by_partition_rows_perm (t : List Row) :
    List.Perm ((split_by_partition t).map Prod.snd).flatten t := by
  unfold split_by_partition
  rw [flatten_map_snd_labelled_id, flatten_chunkBy]
  exact perm_sortBy _ t

theorem sublist_removeA {κ α : Type} [DecidableEq κ] (k0 : κ) :
    ∀ l : List (κ × α), List.Sublist (removeA l k0) l
  | [] => List.Sublist.slnil
  | (k, v) :: t => by
    simp only [removeA]
    split
    · exact (sublist_removeA k0 t).cons _
    · exact (sublist_removeA k0 t).cons₂ _

theorem lookupA_removeA_self {κ α : Type} [DecidableEq κ] (k0 : κ) :
    ∀ l : List (κ × α), lookupA (removeA l k0) k0 = none
  | [] => rfl
  | (k, v) :: t => by
    simp only [removeA]
    split
    · exact lookupA_removeA_self k0 t
    · rename_i hne
      simp only [lookupA, if_neg hne]
      exact lookupA_removeA_self k0 t

theorem not_mem_keys_removeA {κ α : Type} [DecidableEq κ] (k0 : κ) :
    ∀ l : List (κ × α), k0 ∉ (removeA l k0).map Prod.fst
  | [] => by simp [removeA]
  | (k, v) :: t => by
    simp only [removeA]
    split
    · exact not_mem_keys_removeA k0 t
    · rename_i hne
      simp only [List.map_cons, List.mem_cons]
      intro h
      cases h with
      | inl h => exact hne h.symm
      | inr h => exact not_mem_keys_removeA k0 t h

theorem nodup_keys_removeA {κ α : Type} [DecidableEq κ] (k0 : κ)
    (l : List (κ × α)) (h : (l.map Prod.fst).Nodup) :
    ((removeA l k0).map Prod.fst).Nodup :=
  h.sublist ((sublist_removeA k0 l).map Prod.fst)

theorem lookupA_append_of_none {κ α : Type} [DecidableEq κ] (k0 : κ) :
    ∀ (a b : List (κ × α)), lookupA a k0 = none →
      lookupA (a ++ b) k0 = lookupA b k0
  | [], _, _ => by simp
  | (k, v) :: t, b, h => by
    simp only [lookupA] at h
    by_cases hk : k = k0
    · rw [if_pos hk] at h; exact absurd h (by simp)
    · rw [if_neg hk] at h
      simp only [List.cons_append, lookupA, if_neg hk]
      exact lookupA_append_of_none k0 t b h

namespace ShuffleRun

theorem filterNew_received_mono (sz : Shard → Nat) :
    ∀ (data : List Shard) (received : List Nat) (i : Nat),
      i ∈ received → i ∈ (filterNew sz data received).2.1
  | [], _, _, h => h
  | d :: ds, received, i, h => by
    simp only [filterNew]
    split
    · exact filterNew_received_mono sz ds received i h
    · exact filterNew_received_mono sz ds (d.1 :: received) i
        (List.mem_cons_of_mem _ h)

theorem filterNew_mem_received (sz : Shard → Nat) :
    ∀ (data : List Shard) (received : List Nat) (d : Shard),
      d ∈ data → d.1 ∈ (filterNew sz data received).2.1
  | [], _, _, h => absurd h (List.not_mem_nil _)
  | d0 :: ds, received, d, h => by
    simp only [filterNew]
    cases List.mem_cons.mp h with
    | inl heq =>
      subst heq
      split
      · exact filterNew_received_mono sz ds received d.1 (by assumption)
      · exact filterNew_received_mono sz ds (d.1 :: received) d.1
          (List.mem_cons_self _ _)
    | inr htail =>
      split
      · exact filterNew_mem_received sz ds received d htail
      · exact filterNew_mem_received sz ds (d0.1 :: received) d htail

theorem filterNew_of_all_received (sz : Shard → Nat) :
    ∀ (data : List Shard) (received : List Nat),
      (∀ d ∈ data, d.1 ∈ received) →
      filterNew sz data received = ([], received, 0)
  | [], _, _ => rfl
  | d :: ds, received, h => by
    simp only [filterNew, if_pos (h d (List.mem_cons_self _ _))]
    exact filterNew_of_all_received sz ds received
      fun d' hd' => h d' (List.mem_cons_of_mem _ hd')

/-- `receive` never flips `closed`. -/
theorem receive_preserves_closed (sz : Shard → Nat)
    (repart : List Bytes → Except Err (List (Nat × List Bytes)))
    (s : ShuffleRunState) (data : List Shard) :
    (ShuffleRun.receive sz repart s data).1.closed = s.closed := by
  unfold receive raise_if_closed
  by_cases hc : s.closed
  · simp only [hc, if_true]
    cases s.exception <;> simp [hc]
  · simp only [hc, if_false, Bool.false_eq_true]
    by_cases hemp : (filterNew sz data s.received).1.isEmpty
    · simp [hemp]
    · simp only [hemp, if_false, Bool.false_eq_true]
      cases hrp : repart (filterNew sz data s.received).1 with
      | error e => simp
      | ok groups =>
        unfold write_to_disk raise_if_closed diskWrite
        simp only [hc]
        cases s.diskExc <;> simp

/-- After a `receive` on an open run, every input partition of the batch
is marked in the `received` set, whether or not the offload/write chain
succeeded. -/
theorem receive_marks_received (sz : Shard → Nat)
    (repart : List Bytes → Except Err (List (Nat × List Bytes)))
    (s : ShuffleRunState) (data : List Shard) (hc : s.closed = false)
    (d : Shard) (hd : d ∈ data) :
    d.1 ∈ (ShuffleRun.receive sz repart s data).1.received := by
  have hmem := filterNew_mem_received sz data s.received d hd
  unfold receive raise_if_closed
  simp only [hc, if_false, Bool.false_eq_true]
  by_cases hemp : (filterNew sz data s.received).1.isEmpty
  · simpa [hemp] using hmem
  · simp only [hemp, if_false, Bool.false_eq_true]
    cases hrp : repart (filterNew sz data s.received).1 with
    | error e => simpa using hmem
    | ok groups =>
      unfold write_to_disk raise_if_closed diskWrite
      simp only [hc]
      cases s.diskExc <;> simpa using hmem

/-- A `receive` whose batch holds nothing new is a no-op returning
success: the dropped shards change no state. -/
theorem receive_all_received_noop (sz : Shard → Nat)
    (repart : List Bytes → Except Err (List (Nat × List Bytes)))
    (s : ShuffleRunState) (data : List Shard) (hc : s.closed = false)
    (h : ∀ d ∈ data, d.1 ∈ s.received) :
    ShuffleRun.receive sz repart s data = (s, .ok ()) := by
  unfold receive raise_if_closed
  rw [hc, filterNew_of_all_received sz data s.received h]
  simp only [Bool.false_eq_true, if_false, List.isEmpty_nil, if_true, Nat.add_zero,
    Prod.mk.injEq]
  exact ⟨by rw [← hc], trivial⟩

end ShuffleRun

/-! ### Concrete states used by witnesses and counterexamples -/

/-- A concrete scheduler reply: run 1 over two output partitions placed
on workers "A" and "B". -/
def wOk : SchedOk where
  run_id := 1
  worker_for := [(0, "A"), (1, "B")]
  output_workers := ["A", "B"]
  schema := "kv"
  column := "k"

/-- A concrete fresh run of shuffle "sid" on worker "A". -/
def wRun : ShuffleRunState := ShuffleRun.init "sid" wOk "A"

/-- `wRun` after the barrier (OUTPUT state). -/
def c7Run : ShuffleRunState := { wRun with transferred := true }

/-- A concrete open extension registry holding `wRun`. -/
def wExt : ExtState where
  shuffles := [("sid", wRun)]
  runs := [1]
  pendingCloses := []
  closed := false
  local_address := "A"

/-! ### Claims -/

/-- **C4**: for every admissible input (each row's key mapped by
`worker_for`), `split_by_worker` partitions the dataframe's rows into
per-worker shards whose sizes sum to the input row count and whose rows
form the same multiset as the input; `split_by_partition` does the same
for any table, so the multiset of rows across all output partitions
equals the multiset of rows ingested. -/
theorem C4_splitting_preserves_rows (df : List Row) (wf : List (Nat × String))
    (hadm : ∀ r ∈ df, (lookupA wf r.1).isSome) (t : List Row) :
    List.Perm ((split_by_worker df wf).map Prod.snd).flatten df ∧
    ((split_by_worker df wf).map fun p => p.2.length).sum = df.length ∧
    List.Perm ((split_by_partition t).map Prod.snd).flatten t ∧
    ((split_by_partition t).map fun p => p.2.length).sum = t.length := by
  have hw := split_by_worker_rows_perm df wf hadm
  have hp := split_by_partition_rows_perm t
  refine ⟨hw, ?_, hp, ?_⟩
  · have h1 : ((split_by_worker df wf).map fun p => p.2.length)
        = ((split_by_worker df wf).map Prod.snd).map List.length := by
      rw [List.map_map]; rfl
    rw [h1, ← List.length_flatten]
    exact hw.length_eq
  · have h1 : ((split_by_partition t).map fun p => p.2.length)
        = ((split_by_partition t).map Prod.snd).map List.length := by
      rw [List.map_map]; rfl
    rw [h1, ← List.length_flatten]
    exact hp.length_eq

/-- Witness for C4 at the concrete table of spec scenario S1. -/
theorem C4_splitting_preserves_rows_witness :
    (∀ r ∈ ([(1, "b"), (0, "a"), (1, "d"), (0, "c")] : List Row),
        (lookupA [(0, "A"), (1, "B")] r.1).isSome) ∧
    (List.Perm ((split_by_worker [(1, "b"), (0, "a"), (1, "d"), (0, "c")]
          [(0, "A"), (1, "B")]).map Prod.snd).flatten
        [(1, "b"), (0, "a"), (1, "d"), (0, "c")] ∧
      ((split_by_worker [(1, "b"), (0, "a"), (1, "d"), (0, "c")]
          [(0, "A"), (1, "B")]).map fun p => p.2.length).sum
        = ([(1, "b"), (0, "a"), (1, "d"), (0, "c")] : List Row).length ∧
      List.Perm ((split_by_partition [(1, "b"), (0, "a"), (1, "d"), (0, "c")]).map
          Prod.snd).flatten [(1, "b"), (0, "a"), (1, "d"), (0, "c")] ∧
      ((split_by_partition [(1, "b"), (0, "a"), (1, "d"), (0, "c")]).map
          fun p => p.2.length).sum
        = ([(1, "b"), (0, "a"), (1, "d"), (0, "c")] : List Row).length) :=
  ⟨by decide,
    C4_splitting_preserves_rows [(1, "b"), (0, "a"), (1, "d"), (0, "c")]
      [(0, "A"), (1, "B")] (by decide) [(1, "b"), (0, "a"), (1, "d"), (0, "c")]⟩

/-- **C7**: in the OUTPUT state (`transferred` and not closed), for a
locally-owned output partition with no spooled shard,
`get_output_partition` returns an empty table of the run's stored
schema instead of raising. -/
theorem C7_empty_output (s : ShuffleRunState) (i : Nat)
    (hc : s.closed = false) (ht : s.transferred = true)
    (ho : lookupA s.worker_for i = some s.local_address)
    (hd : lookupA s.disk i = none) :
    ShuffleRun.get_output_partition s i = (s, .ok (.emptyOf s.schema)) := by
  unfold ShuffleRun.get_output_partition ShuffleRun.flush_receive
    ShuffleRun.read_from_disk ShuffleRun.raise_if_closed
  simp [hc, ht, ho, hd]

/-- Witness for C7: spec scenario S2, partition 0 of `c7Run` with an
empty disk buffer. -/
theorem C7_empty_output_witness :
    (c7Run.closed = false ∧ c7Run.transferred = true ∧
      lookupA c7Run.worker_for 0 = some c7Run.local_address ∧
      lookupA c7Run.disk 0 = none) ∧
    ShuffleRun.get_output_partition c7Run 0
      = (c7Run, .ok (.emptyOf c7Run.schema)) :=
  ⟨⟨by decide, by decide, by decide, by decide⟩,
    C7_empty_output c7Run 0 (by decide) (by decide) (by decide) (by decide)⟩

/-- **C8**: `ShuffleRun.close` is idempotent: the first call marks the
run closed, performs the four release actions (close comm buffer, close
disk buffer, shut down executor, set latch); a second call performs no
action and leaves the state unchanged, so no resource is released
twice. -/
theorem C8_close_idempotent (s : ShuffleRunState) (hc : s.closed = false) :
    (ShuffleRun.close s).1.closed = true ∧
    (ShuffleRun.close s).1.closed_event = true ∧
    (ShuffleRun.close s).1.executorShutdown = true ∧
    (ShuffleRun.close s).2
      = [.closeComm, .closeDisk, .shutdownExecutor, .setLatch] ∧
    ShuffleRun.close (ShuffleRun.close s).1 = ((ShuffleRun.close s).1, []) := by
  unfold ShuffleRun.close
  simp [hc]

/-- Witness for C8 on the concrete open run `wRun`. -/
theorem C8_close_idempotent_witness :
    wRun.closed = false ∧
    ((ShuffleRun.close wRun).1.closed = true ∧
      (ShuffleRun.close wRun).1.closed_event = true ∧
      (ShuffleRun.close wRun).1.executorShutdown = true ∧
      (ShuffleRun.close wRun).2
        = [.closeComm, .closeDisk, .shutdownExecutor, .setLatch] ∧
      ShuffleRun.close (ShuffleRun.close wRun).1
        = ((ShuffleRun.close wRun).1, [])) :=
  ⟨by decide, C8_close_idempotent wRun (by decide)⟩

/-- **C9**: unlike `ShuffleRun.close`, the extension's `close` is not
idempotent: a first call succeeds, marks the extension closed and
drains the registry, and a second call fails the `assert not
self.closed` instead of being a no-op. -/
theorem C9_extension_close_not_idempotent (ext : ExtState)
    (hc : ext.closed = false) :
    (ShuffleWorkerExtension.close ext).2 = .ok () ∧
    (ShuffleWorkerExtension.close ext).1.closed = true ∧
    (ShuffleWorkerExtension.close ext).1.shuffles = [] ∧
    ShuffleWorkerExtension.close (ShuffleWorkerExtension.close ext).1
      = ((ShuffleWorkerExtension.close ext).1,
          .error (.assertionError "not self.closed")) := by
  unfold ShuffleWorkerExtension.close
  simp [hc]

/-- Witness for C9 on the concrete open registry `wExt`. -/
theorem C9_extension_close_not_idempotent_witness :
    wExt.closed = false ∧
    ((ShuffleWorkerExtension.close wExt).2 = .ok () ∧
      (ShuffleWorkerExtension.close wExt).1.closed = true ∧
      (ShuffleWorkerExtension.close wExt).1.shuffles = [] ∧
      ShuffleWorkerExtension.close (ShuffleWorkerExtension.close wExt).1
        = ((ShuffleWorkerExtension.close wExt).1,
            .error (.assertionError "not self.closed"))) :=
  ⟨by decide, C9_extension_close_not_idempotent wExt (by decide)⟩

/-- **C3**: `receive` is idempotent per input partition: shards whose
input partition id is already in `received` are dropped (neither counted
into `total_recvd` nor written to disk), so redelivering a batch already
marked received is a state-preserving success, and a second delivery of
any batch leaves the state exactly as after the first. -/
theorem C3_receive_idempotent (sz : Shard → Nat)
    (repart : List Bytes → Except Err (List (Nat × List Bytes)))
    (s : ShuffleRunState) (data : List Shard) (hc : s.closed = false) :
    ((∀ d ∈ data, d.1 ∈ s.received) →
      ShuffleRun.receive sz repart s data = (s, .ok ())) ∧
    ShuffleRun.receive sz repart (ShuffleRun.receive sz repart s data).1 data
      = ((ShuffleRun.receive sz repart s data).1, .ok ()) := by
  refine ⟨fun h => ShuffleRun.receive_all_received_noop sz repart s data hc h, ?_⟩
  apply ShuffleRun.receive_all_received_noop
  · rw [ShuffleRun.receive_preserves_closed]
    exact hc
  · intro d hd
    exact ShuffleRun.receive_marks_received sz repart s data hc d hd

/-- Witness for C3: spec scenario S3, a batch for input partition 7
delivered twice to the open run `wRun`. -/
theorem C3_receive_idempotent_witness :
    wRun.closed = false ∧
    (((∀ d ∈ ([(7, "x")] : List Shard), d.1 ∈ wRun.received) →
        ShuffleRun.receive (fun d => d.2.length) (fun bs => .ok [(0, bs)])
          wRun [(7, "x")] = (wRun, .ok ())) ∧
      ShuffleRun.receive (fun d => d.2.length) (fun bs => .ok [(0, bs)])
          (ShuffleRun.receive (fun d => d.2.length) (fun bs => .ok [(0, bs)])
            wRun [(7, "x")]).1 [(7, "x")]
        = ((ShuffleRun.receive (fun d => d.2.length) (fun bs => .ok [(0, bs)])
            wRun [(7, "x")]).1, .ok ())) :=
  ⟨by decide,
    C3_receive_idempotent (fun d => d.2.length) (fun bs => .ok [(0, bs)])
      wRun [(7, "x")] (by decide)⟩

/-- The state produced by a `receive` whose offload/write chain fails:
dedup bookkeeping done, exception latched, disk untouched. -/
theorem ShuffleRun.receive_error_state (sz : Shard → Nat)
    (repart : List Bytes → Except Err (List (Nat × List Bytes)))
    (s : ShuffleRunState) (data : List Shard) (e : Err)
    (hc : s.closed = false)
    (hnew : (ShuffleRun.filterNew sz data s.received).1 ≠ [])
    (hfail : repart (ShuffleRun.filterNew sz data s.received).1 = .error e ∨
      s.diskExc = some e ∧
        ∃ groups,
          repart (ShuffleRun.filterNew sz data s.received).1 = .ok groups) :
    ShuffleRun.receive sz repart s data =
      ({ s with
          received := (ShuffleRun.filterNew sz data s.received).2.1
          total_recvd :=
            s.total_recvd + (ShuffleRun.filterNew sz data s.received).2.2
          exception := some e },
        .error e) := by
  unfold ShuffleRun.receive ShuffleRun.raise_if_closed
  rw [hc]
  have hemp : (ShuffleRun.filterNew sz data s.received).1.isEmpty = false := by
    cases hl : (ShuffleRun.filterNew sz data s.received).1 with
    | nil => exact absurd hl hnew
    | cons a l => rfl
  simp only [Bool.false_eq_true, if_false, hemp]
  cases hfail with
  | inl h => rw [h]
  | inr h =>
    obtain ⟨hdx, groups, hok⟩ := h
    rw [hok]
    unfold ShuffleRun.write_to_disk ShuffleRun.raise_if_closed diskWrite
    simp only [hc, Bool.false_eq_true, if_false, hdx]

/-- **C10**: `receive` is not atomic on error: the dedup set and
`total_recvd` are updated before the offload/write chain, so when the
repartitioning raises (or the disk write fails fast on the buffer's
sticky exception), the batch's input partition ids stay marked received
and counted although nothing reached the disk buffer, the exception is
latched, and a later retransmission of those ids is silently dropped. -/
theorem C10_receive_not_atomic (sz : Shard → Nat)
    (repart : List Bytes → Except Err (List (Nat × List Bytes)))
    (s : ShuffleRunState) (data : List Shard) (e : Err)
    (hc : s.closed = false)
    (hnew : (ShuffleRun.filterNew sz data s.received).1 ≠ [])
    (hfail : repart (ShuffleRun.filterNew sz data s.received).1 = .error e ∨
      s.diskExc = some e ∧
        ∃ groups,
          repart (ShuffleRun.filterNew sz data s.received).1 = .ok groups) :
    (ShuffleRun.receive sz repart s data).2 = .error e ∧
    (ShuffleRun.receive sz repart s data).1.disk = s.disk ∧
    (ShuffleRun.receive sz repart s data).1.exception = some e ∧
    (∀ d ∈ data, d.1 ∈ (ShuffleRun.receive sz repart s data).1.received) ∧
    (ShuffleRun.receive sz repart s data).1.total_recvd
      = s.total_recvd + (ShuffleRun.filterNew sz data s.received).2.2 ∧
    (∀ repart2, ShuffleRun.receive sz repart2
        (ShuffleRun.receive sz repart s data).1 data
      = ((ShuffleRun.receive sz repart s data).1, .ok ())) := by
  have hstate :=
    ShuffleRun.receive_error_state sz repart s data e hc hnew hfail
  have hmarks : ∀ d ∈ data,
      d.1 ∈ (ShuffleRun.receive sz repart s data).1.received :=
    fun d hd => ShuffleRun.receive_marks_received sz repart s data hc d hd
  refine ⟨by rw [hstate], by rw [hstate], by rw [hstate], hmarks,
    by rw [hstate], fun repart2 => ?_⟩
  apply ShuffleRun.receive_all_received_noop
  · rw [ShuffleRun.receive_preserves_closed]
    exact hc
  · exact hmarks

/-- Witness for C10: the repartitioning of a fresh batch raises on the
open run `wRun`. -/
theorem C10_receive_not_atomic_witness :
    (wRun.closed = false ∧
      (ShuffleRun.filterNew (fun d => d.2.length) [(7, "x")] wRun.received).1
        ≠ [] ∧
      (fun _ : List Bytes =>
          (.error (.runtimeError "codec") : Except Err (List (Nat × List Bytes))))
        (ShuffleRun.filterNew (fun d => d.2.length) [(7, "x")] wRun.received).1
        = .error (.runtimeError "codec")) ∧
    ((ShuffleRun.receive (fun d => d.2.length)
        (fun _ => .error (.runtimeError "codec")) wRun [(7, "x")]).2
      = .error (.runtimeError "codec") ∧
      (ShuffleRun.receive (fun d => d.2.length)
          (fun _ => .error (.runtimeError "codec")) wRun [(7, "x")]).1.disk
        = wRun.disk ∧
      (ShuffleRun.receive (fun d => d.2.length)
          (fun _ => .error (.runtimeError "codec")) wRun [(7, "x")]).1.exception
        = some (.runtimeError "codec") ∧
      (∀ d ∈ ([(7, "x")] : List Shard),
        d.1 ∈ (ShuffleRun.receive (fun d => d.2.length)
          (fun _ => .error (.runtimeError "codec")) wRun [(7, "x")]).1.received) ∧
      (ShuffleRun.receive (fun d => d.2.length)
          (fun _ => .error (.runtimeError "codec")) wRun [(7, "x")]).1.total_recvd
        = wRun.total_recvd
          + (ShuffleRun.filterNew (fun d => d.2.length) [(7, "x")]
              wRun.received).2.2 ∧
      (∀ repart2, ShuffleRun.receive (fun d => d.2.length) repart2
          (ShuffleRun.receive (fun d => d.2.length)
            (fun _ => .error (.runtimeError "codec")) wRun [(7, "x")]).1
          [(7, "x")]
        = ((ShuffleRun.receive (fun d => d.2.length)
            (fun _ => .error (.runtimeError "codec")) wRun [(7, "x")]).1,
            .ok ()))) :=
  ⟨⟨by decide, by decide, rfl⟩,
    C10_receive_not_atomic (fun d => d.2.length)
      (fun _ => .error (.runtimeError "codec")) wRun [(7, "x")]
      (.runtimeError "codec") (by decide) (by decide) (.inl rfl)⟩

/-- `add_partition` never changes `transferred`. -/
theorem ShuffleRun.add_partition_preserves_transferred
    (splitOut : Except Err (List (String × List Shard)))
    (s : ShuffleRunState) :
    (ShuffleRun.add_partition splitOut s).1.transferred = s.transferred := by
  unfold ShuffleRun.add_partition ShuffleRun.raise_if_closed
    ShuffleRun.write_to_comm commWrite
  by_cases hcl : s.closed
  · simp only [hcl, if_true]
    cases s.exception <;> simp
  · simp only [hcl, Bool.false_eq_true, if_false]
    by_cases htr : s.transferred
    · simp [htr]
    · simp only [htr, Bool.false_eq_true, if_false]
      cases splitOut with
      | error e => simp [htr]
      | ok out =>
        cases s.commExc <;> simp [ShuffleRun.raise_if_closed, hcl, htr]

/-- `receive` never changes `transferred`. -/
theorem ShuffleRun.receive_preserves_transferred (sz : Shard → Nat)
    (repart : List Bytes → Except Err (List (Nat × List Bytes)))
    (s : ShuffleRunState) (data : List Shard) :
    (ShuffleRun.receive sz repart s data).1.transferred = s.transferred := by
  unfold ShuffleRun.receive ShuffleRun.raise_if_closed
  by_cases hcl : s.closed
  · simp only [hcl, if_true]
    cases s.exception <;> simp
  · simp only [hcl, Bool.false_eq_true, if_false]
    by_cases hemp : (ShuffleRun.filterNew sz data s.received).1.isEmpty
    · simp [hemp]
    · simp only [hemp, Bool.false_eq_true, if_false]
      cases repart (ShuffleRun.filterNew sz data s.received).1 with
      | error e => simp
      | ok groups =>
        unfold ShuffleRun.write_to_disk ShuffleRun.raise_if_closed diskWrite
        simp only [hcl]
        cases s.diskExc <;> simp

/-- `get_output_partition` returns the state unchanged. -/
theorem ShuffleRun.get_output_partition_state (s : ShuffleRunState) (i : Nat) :
    (ShuffleRun.get_output_partition s i).1 = s := by
  unfold ShuffleRun.get_output_partition ShuffleRun.flush_receive
    ShuffleRun.read_from_disk ShuffleRun.raise_if_closed
  by_cases hcl : s.closed
  · simp only [hcl, if_true]
    cases s.exception <;> simp
  · simp only [hcl, Bool.false_eq_true, if_false]
    by_cases htr : s.transferred
    · simp only [htr]
      cases lookupA s.worker_for i with
      | none => simp
      | some owner =>
        by_cases hown : owner ≠ s.local_address
        · simp [hown]
        · simp only [hown, if_false]
          cases lookupA s.disk i <;> simp
    · simp [htr]

/-- `inputs_done` on an already-transferred run is rejected and leaves
the state unchanged. -/
theorem ShuffleRun.inputs_done_on_transferred (s : ShuffleRunState)
    (ht : s.transferred = true) :
    (ShuffleRun.inputs_done s).1 = s := by
  unfold ShuffleRun.inputs_done ShuffleRun.raise_if_closed
  by_cases hcl : s.closed
  · simp only [hcl, if_true]
    cases s.exception <;> simp
  · simp [hcl, ht]

/-- **C6**: on a run with `transferred = true`, `add_partition` raises
an error and returns before any offload or comm-buffer write — the run
state (both buffers included) is returned unchanged; and
`transferred = true` is monotone: no operation resets it. -/
theorem C6_no_input_after_transfer
    (splitOut : Except Err (List (String × List Shard)))
    (s : ShuffleRunState) (ht : s.transferred = true) :
    (ShuffleRun.add_partition splitOut s).1 = s ∧
    (∃ e, (ShuffleRun.add_partition splitOut s).2 = .error e) ∧
    (∀ s' : ShuffleRunState, s'.transferred = true →
      (∀ splitOut',
        (ShuffleRun.add_partition splitOut' s').1.transferred = true) ∧
      (∀ sz repart data,
        (ShuffleRun.receive sz repart s' data).1.transferred = true) ∧
      (ShuffleRun.inputs_done s').1.transferred = true ∧
      (∀ i, (ShuffleRun.get_output_partition s' i).1.transferred = true) ∧
      (∀ rpc, (ShuffleRun.barrier rpc s').1.transferred = true) ∧
      (∀ rpc a sh, (ShuffleRun.send rpc s' a sh).1.transferred = true) ∧
      (ShuffleRun.close s').1.transferred = true ∧
      (∀ e, (ShuffleRun.fail s' e).transferred = true)) := by
  refine ⟨?_, ?_, ?_⟩
  · unfold ShuffleRun.add_partition ShuffleRun.raise_if_closed
    by_cases hcl : s.closed
    · simp only [hcl, if_true]
      cases s.exception <;> simp
    · simp [hcl, ht]
  · unfold ShuffleRun.add_partition ShuffleRun.raise_if_closed
    by_cases hcl : s.closed
    · simp only [hcl, if_true]
      cases hx : s.exception with
      | some e => exact ⟨e, rfl⟩
      | none => exact ⟨.shuffleClosed s.id s.local_address, rfl⟩
    · simp only [hcl, Bool.false_eq_true, if_false, ht, if_true]
      exact ⟨.runtimeError "Cannot add more partitions to shuffle", rfl⟩
  · intro s' ht'
    refine ⟨?_, ?_, ?_, ?_, ?_, ?_, ?_, ?_⟩
    · intro splitOut'
      rw [ShuffleRun.add_partition_preserves_transferred]
      exact ht'
    · intro sz repart data
      rw [ShuffleRun.receive_preserves_transferred]
      exact ht'
    · rw [ShuffleRun.inputs_done_on_transferred s' ht']
      exact ht'
    · intro i
      rw [ShuffleRun.get_output_partition_state]
      exact ht'
    · intro rpc
      unfold ShuffleRun.barrier
      cases ShuffleRun.raise_if_closed s' <;> simpa
    · intro rpc a sh
      unfold ShuffleRun.send
      cases ShuffleRun.raise_if_closed s' <;> simpa
    · unfold ShuffleRun.close
      by_cases hcl : s'.closed
      · simp [hcl, ht']
      · simp [hcl, ht']
    · intro e
      unfold ShuffleRun.fail
      by_cases hcl : s'.closed
      · simp [hcl, ht']
      · simp [hcl, ht']

/-- Witness for C6: spec scenario S4, `add_partition` after the barrier
on the concrete OUTPUT-state run `c7Run`. -/
theorem C6_no_input_after_transfer_witness :
    c7Run.transferred = true ∧
    ((ShuffleRun.add_partition (.ok []) c7Run).1 = c7Run ∧
      (∃ e, (ShuffleRun.add_partition (.ok []) c7Run).2 = .error e) ∧
      (∀ s' : ShuffleRunState, s'.transferred = true →
        (∀ splitOut',
          (ShuffleRun.add_partition splitOut' s').1.transferred = true) ∧
        (∀ sz repart data,
          (ShuffleRun.receive sz repart s' data).1.transferred = true) ∧
        (ShuffleRun.inputs_done s').1.transferred = true ∧
        (∀ i, (ShuffleRun.get_output_partition s' i).1.transferred = true) ∧
        (∀ rpc, (ShuffleRun.barrier rpc s').1.transferred = true) ∧
        (∀ rpc a sh, (ShuffleRun.send rpc s' a sh).1.transferred = true) ∧
        (ShuffleRun.close s').1.transferred = true ∧
        (∀ e, (ShuffleRun.fail s' e).transferred = true))) :=
  ⟨by decide, C6_no_input_after_transfer (.ok []) c7Run (by decide)⟩

/-- Keys stay nodup when a key is removed and re-inserted at the end
(the registry's pop-then-assign idiom). -/
theorem nodup_keys_install {κ α : Type} [DecidableEq κ] (l : List (κ × α))
    (k : κ) (v : α) (h : (l.map Prod.fst).Nodup) :
    ((removeA l k ++ [(k, v)]).map Prod.fst).Nodup := by
  rw [List.map_append]
  refine (nodup_keys_removeA k l h).append (List.nodup_singleton _) ?_
  intro a ha hb
  simp only [List.map_cons, List.map_nil, List.mem_singleton] at hb
  exact not_mem_keys_removeA k l (hb ▸ ha)

/-- Looking up the re-inserted key finds the new value. -/
theorem lookupA_install {κ α : Type} [DecidableEq κ] (l : List (κ × α))
    (k : κ) (v : α) :
    lookupA (removeA l k ++ [(k, v)]) k = some v := by
  rw [lookupA_append_of_none k _ _ (lookupA_removeA_self k l)]
  simp [lookupA]

/-- **C2, counterexample**: when the scheduler reports run 2 superseding
the installed run 1, `_refresh_shuffle` installs the new run while the
evicted run has been failed but is NOT closed: its close is only
scheduled as a background task, so `closed` and `closed_event` are still
false when the new run is installed. -/
theorem C2_refresh_counterexample :
    (ShuffleWorkerExtension.refresh_shuffle wExt "sid"
        (.ok { wOk with run_id := 2 })).2
      = .ok (ShuffleRun.init "sid" { wOk with run_id := 2 } "A") ∧
    (lookupA (ShuffleWorkerExtension.refresh_shuffle wExt "sid"
        (.ok { wOk with run_id := 2 })).1.shuffles "sid").map (fun r => r.run_id)
      = some 2 ∧
    (ShuffleWorkerExtension.refresh_shuffle wExt "sid"
        (.ok { wOk with run_id := 2 })).1.pendingCloses.map
        (fun r => (r.run_id, r.exception, r.closed, r.closed_event))
      = [(1, some (.runtimeError "Stale Shuffle"), false, false)] :=
  ⟨rfl, rfl, rfl⟩

/-- **C2 (amended)**: the registry maps each ShuffleId to at most one
run (key uniqueness is preserved by `_refresh_shuffle`); an existing run
is replaced only when the scheduler reports a strictly greater run id —
an equal or smaller run id returns the existing run with the registry
unchanged — and on replacement the old run is failed (its exception
latched unless it was already closed) and its close is scheduled as a
background task before the new run is installed; the old run need not
be closed yet at installation. -/
theorem C2_refresh_supersede (ext : ExtState) (sid : String) (r : SchedOk)
    (hopen : ext.closed = false)
    (hnd : (ext.shuffles.map Prod.fst).Nodup) :
    ((ShuffleWorkerExtension.refresh_shuffle ext sid
        (.ok r)).1.shuffles.map Prod.fst).Nodup ∧
    (∀ existing, lookupA ext.shuffles sid = some existing →
      (r.run_id ≤ existing.run_id →
        ShuffleWorkerExtension.refresh_shuffle ext sid (.ok r)
          = (ext, .ok existing)) ∧
      (existing.run_id < r.run_id →
        lookupA (ShuffleWorkerExtension.refresh_shuffle ext sid
            (.ok r)).1.shuffles sid
          = some (ShuffleRun.init sid r ext.local_address) ∧
        (ShuffleWorkerExtension.refresh_shuffle ext sid (.ok r)).2
          = .ok (ShuffleRun.init sid r ext.local_address) ∧
        (ShuffleWorkerExtension.refresh_shuffle ext sid
            (.ok r)).1.pendingCloses
          = ext.pendingCloses
            ++ [ShuffleRun.fail existing (.runtimeError "Stale Shuffle")] ∧
        (existing.closed = false →
          (ShuffleRun.fail existing
              (.runtimeError "Stale Shuffle")).exception
            = some (.runtimeError "Stale Shuffle")))) := by
  unfold ShuffleWorkerExtension.refresh_shuffle
  simp only [hopen, Bool.false_eq_true, if_false]
  cases hl : lookupA ext.shuffles sid with
  | none =>
    refine ⟨nodup_keys_install ext.shuffles sid _ hnd, ?_⟩
    intro existing hex
    exact absurd hex (by simp)
  | some existing0 =>
    by_cases hle : r.run_id ≤ existing0.run_id
    · simp only [hle, if_true]
      refine ⟨hnd, ?_⟩
      intro existing hex
      have hx : existing0 = existing := by injection hex
      subst hx
      refine ⟨fun _ => rfl, fun hlt => absurd hle (by omega)⟩
    · simp only [hle, if_false]
      refine ⟨nodup_keys_install (removeA ext.shuffles sid) sid _
        (nodup_keys_removeA sid ext.shuffles hnd), ?_⟩
      intro existing hex
      have hx : existing0 = existing := by injection hex
      subst hx
      refine ⟨fun h => absurd h hle,
        fun _ => ⟨lookupA_install _ _ _, by trivial, by trivial, ?_⟩⟩
      intro hcl
      unfold ShuffleRun.fail
      rw [hcl]
      rfl

/-- Witness for C2 (amended) on the concrete registry `wExt` and a
scheduler reply carrying run 2. -/
theorem C2_refresh_supersede_witness :
    (wExt.closed = false ∧ (wExt.shuffles.map Prod.fst).Nodup) ∧
    (((ShuffleWorkerExtension.refresh_shuffle wExt "sid"
        (.ok { wOk with run_id := 2 })).1.shuffles.map Prod.fst).Nodup ∧
      (∀ existing, lookupA wExt.shuffles "sid" = some existing →
        ({ wOk with run_id := 2 }.run_id ≤ existing.run_id →
          ShuffleWorkerExtension.refresh_shuffle wExt "sid"
              (.ok { wOk with run_id := 2 })
            = (wExt, .ok existing)) ∧
        (existing.run_id < { wOk with run_id := 2 }.run_id →
          lookupA (ShuffleWorkerExtension.refresh_shuffle wExt "sid"
              (.ok { wOk with run_id := 2 })).1.shuffles "sid"
            = some (ShuffleRun.init "sid" { wOk with run_id := 2 }
                wExt.local_address) ∧
          (ShuffleWorkerExtension.refresh_shuffle wExt "sid"
              (.ok { wOk with run_id := 2 })).2
            = .ok (ShuffleRun.init "sid" { wOk with run_id := 2 }
                wExt.local_address) ∧
          (ShuffleWorkerExtension.refresh_shuffle wExt "sid"
              (.ok { wOk with run_id := 2 })).1.pendingCloses
            = wExt.pendingCloses
              ++ [ShuffleRun.fail existing (.runtimeError "Stale Shuffle")] ∧
          (existing.closed = false →
            (ShuffleRun.fail existing
                (.runtimeError "Stale Shuffle")).exception
              = some (.runtimeError "Stale Shuffle"))))) :=
  ⟨⟨by decide, by decide⟩,
    C2_refresh_supersede wExt "sid" { wOk with run_id := 2 }
      (by decide) (by decide)⟩

/-- `_refresh_shuffle` on an id with no local run installs the
scheduler's run. -/
theorem refresh_shuffle_absent (ext : ExtState) (sid : String) (r : SchedOk)
    (hopen : ext.closed = false)
    (hl : lookupA ext.shuffles sid = none) :
    ShuffleWorkerExtension.refresh_shuffle ext sid (.ok r)
      = ({ ext with
            shuffles := removeA ext.shuffles sid
              ++ [(sid, ShuffleRun.init sid r ext.local_address)]
            runs := ext.runs
              ++ [(ShuffleRun.init sid r ext.local_address).run_id] },
          .ok (ShuffleRun.init sid r ext.local_address)) := by
  unfold ShuffleWorkerExtension.refresh_shuffle
  simp only [hopen, Bool.false_eq_true, if_false, hl]

/-- `_refresh_shuffle` on a local run older than the scheduler's reply
evicts it and installs the new run. -/
theorem refresh_shuffle_newer (ext : ExtState) (sid : String) (r : SchedOk)
    (existing : ShuffleRunState) (hopen : ext.closed = false)
    (hl : lookupA ext.shuffles sid = some existing)
    (hlt : existing.run_id < r.run_id) :
    ShuffleWorkerExtension.refresh_shuffle ext sid (.ok r)
      = ({ ext with
            shuffles := removeA (removeA ext.shuffles sid) sid
              ++ [(sid, ShuffleRun.init sid r ext.local_address)]
            runs := ext.runs
              ++ [(ShuffleRun.init sid r ext.local_address).run_id]
            pendingCloses := ext.pendingCloses
              ++ [ShuffleRun.fail existing (.runtimeError "Stale Shuffle")] },
          .ok (ShuffleRun.init sid r ext.local_address)) := by
  unfold ShuffleWorkerExtension.refresh_shuffle
  have hnle : ¬ r.run_id ≤ existing.run_id := by omega
  simp only [hopen, Bool.false_eq_true, if_false, hl, hnle]

/-- **C5**: `_get_shuffle_run` returns the local run when present with
the requested run id and no latched exception; raises the latched
exception when the ids are equal but the run has failed; raises "Stale
shuffle" when the requested id is below the local id, also after a
refresh; refreshes from the scheduler when the run is absent or older
than the requested id, installing and returning the scheduler's run
when its id matches the request; and raises "Invalid shuffle state"
when the requested id exceeds the refreshed local id. -/
theorem C5_get_shuffle_run (ext : ExtState) (sid : String) (rid : Nat)
    (r : SchedOk) :
    (∀ sh, lookupA ext.shuffles sid = some sh → sh.run_id = rid →
      sh.exception = none →
      ∀ res, ShuffleWorkerExtension.get_shuffle_run ext sid rid res
        = (ext, .ok sh)) ∧
    (∀ sh e, lookupA ext.shuffles sid = some sh → sh.run_id = rid →
      sh.exception = some e →
      ∀ res, ShuffleWorkerExtension.get_shuffle_run ext sid rid res
        = (ext, .error e)) ∧
    (∀ sh, lookupA ext.shuffles sid = some sh → rid < sh.run_id →
      ∀ res, ShuffleWorkerExtension.get_shuffle_run ext sid rid res
        = (ext, .error (.runtimeError "Stale shuffle"))) ∧
    (ext.closed = false →
      (lookupA ext.shuffles sid = none →
        (r.run_id = rid →
          (ShuffleWorkerExtension.get_shuffle_run ext sid rid (.ok r)).2
            = .ok (ShuffleRun.init sid r ext.local_address) ∧
          lookupA (ShuffleWorkerExtension.get_shuffle_run ext sid rid
              (.ok r)).1.shuffles sid
            = some (ShuffleRun.init sid r ext.local_address)) ∧
        (rid < r.run_id →
          (ShuffleWorkerExtension.get_shuffle_run ext sid rid (.ok r)).2
            = .error (.runtimeError "Stale shuffle")) ∧
        (r.run_id < rid →
          (ShuffleWorkerExtension.get_shuffle_run ext sid rid (.ok r)).2
            = .error (.runtimeError "Invalid shuffle state"))) ∧
      (∀ sh, lookupA ext.shuffles sid = some sh → sh.run_id < rid →
        r.run_id = rid →
        (ShuffleWorkerExtension.get_shuffle_run ext sid rid (.ok r)).2
          = .ok (ShuffleRun.init sid r ext.local_address) ∧
        lookupA (ShuffleWorkerExtension.get_shuffle_run ext sid rid
            (.ok r)).1.shuffles sid
          = some (ShuffleRun.init sid r ext.local_address))) := by
  refine ⟨?_, ?_, ?_, ?_⟩
  · intro sh hsh hrid hexc res
    unfold ShuffleWorkerExtension.get_shuffle_run
    subst hrid
    simp [hsh, hexc]
  · intro sh e hsh hrid hexc res
    unfold ShuffleWorkerExtension.get_shuffle_run
    subst hrid
    simp [hsh, hexc]
  · intro sh hsh hlt res
    unfold ShuffleWorkerExtension.get_shuffle_run
    have hnlt : ¬ sh.run_id < rid := by omega
    simp [hsh, hnlt, hlt]
  · intro hopen
    constructor
    · intro habs
      have hr := refresh_shuffle_absent ext sid r hopen habs
      refine ⟨?_, ?_, ?_⟩
      · intro heq
        unfold ShuffleWorkerExtension.get_shuffle_run
        rw [habs, hr]
        constructor
        · simp [ShuffleRun.init, heq]
        · simp only [ShuffleRun.init, heq]
          simp [lookupA_install]
      · intro hlt
        unfold ShuffleWorkerExtension.get_shuffle_run
        rw [habs, hr]
        simp [ShuffleRun.init, hlt]
      · intro hlt
        unfold ShuffleWorkerExtension.get_shuffle_run
        rw [habs, hr]
        have hnlt : ¬ rid < r.run_id := by omega
        simp [ShuffleRun.init, hlt, hnlt]
    · intro sh hsh hlt heq
      have hlt2 : sh.run_id < r.run_id := by omega
      have hr := refresh_shuffle_newer ext sid r sh hopen hsh hlt2
      unfold ShuffleWorkerExtension.get_shuffle_run
      rw [hsh]
      simp only [hlt, if_true, hr]
      constructor
      · simp [ShuffleRun.init, heq]
      · simp only [ShuffleRun.init, heq]
        simp [lookupA_install]

/-- Witness for C5: requesting the installed run 1 of `wExt` returns it
unchanged. -/
theorem C5_get_shuffle_run_witness :
    (lookupA wExt.shuffles "sid" = some wRun ∧ wRun.run_id = 1 ∧
      wRun.exception = none) ∧
    ShuffleWorkerExtension.get_shuffle_run wExt "sid" 1 (.ok wOk)
      = (wExt, .ok wRun) :=
  ⟨⟨by decide, by decide, by decide⟩,
    (C5_get_shuffle_run wExt "sid" 1 wOk).1 wRun (by decide) (by decide)
      (by decide) (.ok wOk)⟩

/-- `wRun` with the sticky exception latched while still open. -/
def c1OpenFailedRun : ShuffleRunState :=
  { wRun with exception := some (.runtimeError "boom") }

/-- `wRun` closed with the sticky exception latched. -/
def c1ClosedFailedRun : ShuffleRunState :=
  { wRun with closed := true, exception := some (.runtimeError "boom") }

/-- **C1, counterexample**: on a run where `fail` has latched an
exception but `closed` is still false, `add_partition` succeeds (returns
the run id) instead of raising the latched exception:
`raise_if_closed` inspects the sticky exception only under the
`closed` guard, so the claim as stated is false. -/
theorem C1_sticky_counterexample :
    c1OpenFailedRun = ShuffleRun.fail wRun (.runtimeError "boom") ∧
    c1OpenFailedRun.closed = false ∧
    c1OpenFailedRun.exception = some (.runtimeError "boom") ∧
    (ShuffleRun.add_partition (.ok []) c1OpenFailedRun).2 = .ok 1 ∧
    (ShuffleRun.receive (fun d => d.2.length) (fun bs => .ok [(0, bs)])
        c1OpenFailedRun [(7, "x")]).2 = .ok () :=
  ⟨rfl, rfl, rfl, rfl, rfl⟩

/-- **C1 (amended)**: once the run is closed with the sticky exception
latched, every public operation (`add_partition`, `receive`, `barrier`,
`inputs_done`, `get_output_partition`, `send`, `offload`) raises the
latched exception; while `closed` is false the run's own entry points do
not raise it. -/
theorem C1_closed_ops_raise_latched (s : ShuffleRunState) (e : Err)
    (hc : s.closed = true) (he : s.exception = some e)
    (splitOut : Except Err (List (String × List Shard)))
    (sz : Shard → Nat)
    (repart : List Bytes → Except Err (List (Nat × List Bytes)))
    (data : List Shard) (rpc : Except Err Unit) (addr : String)
    (shards : List Shard) (i : Nat) {α : Type} (res : Except Err α) :
    (ShuffleRun.add_partition splitOut s).2 = .error e ∧
    (ShuffleRun.receive sz repart s data).2 = .error e ∧
    (ShuffleRun.barrier rpc s).2 = .error e ∧
    (ShuffleRun.inputs_done s).2 = .error e ∧
    (ShuffleRun.get_output_partition s i).2 = .error e ∧
    (ShuffleRun.send rpc s addr shards).2 = .error e ∧
    (ShuffleRun.offload res s).2 = .error e := by
  have hric : ShuffleRun.raise_if_closed s = .error e := by
    unfold ShuffleRun.raise_if_closed
    rw [hc, he]
    rfl
  refine ⟨?_, ?_, ?_, ?_, ?_, ?_, ?_⟩ <;>
    simp [ShuffleRun.add_partition, ShuffleRun.receive, ShuffleRun.barrier,
      ShuffleRun.inputs_done, ShuffleRun.get_output_partition,
      ShuffleRun.send, ShuffleRun.offload, hric]

/-- Witness for C1 (amended) on the concrete closed failed run. -/
theorem C1_closed_ops_raise_latched_witness :
    (c1ClosedFailedRun.closed = true ∧
      c1ClosedFailedRun.exception = some (.runtimeError "boom")) ∧
    ((ShuffleRun.add_partition (.ok []) c1ClosedFailedRun).2
        = .error (.runtimeError "boom") ∧
      (ShuffleRun.receive (fun d => d.2.length) (fun bs => .ok [(0, bs)])
          c1ClosedFailedRun [(7, "x")]).2 = .error (.runtimeError "boom") ∧
      (ShuffleRun.barrier (.ok ()) c1ClosedFailedRun).2
        = .error (.runtimeError "boom") ∧
      (ShuffleRun.inputs_done c1ClosedFailedRun).2
        = .error (.runtimeError "boom") ∧
      (ShuffleRun.get_output_partition c1ClosedFailedRun 0).2
        = .error (.runtimeError "boom") ∧
      (ShuffleRun.send (.ok ()) c1ClosedFailedRun "B" []).2
        = .error (.runtimeError "boom") ∧
      (ShuffleRun.offload (Except.ok 0) c1ClosedFailedRun).2
        = .error (.runtimeError "boom")) :=
  ⟨⟨by decide, by decide⟩,
    C1_closed_ops_raise_latched c1ClosedFailedRun (.runtimeError "boom")
      (by decide) (by decide) (.ok []) (fun d => d.2.length)
      (fun bs => .ok [(0, bs)]) [(7, "x")] (.ok ()) "B" [] 0 (Except.ok 0)⟩
